import Mathlib

/-!
Verification development for the YouTube-transcript backend (`src/main.py`).

Strings are modelled as `List Char`.  Python floats are modelled as
rationals (`ℚ`); `float(...)` applied to a string is modelled for finite
decimal literals (the `inf`/`nan` spellings are outside the model).
Whitespace is modelled as the four ASCII whitespace characters.
Side effects of the fetch loop (upstream calls, `time.sleep`) are made
explicit: the upstream is a function from the attempt index to an outcome,
and the sleeps performed are returned as a list of durations.
-/

namespace YTB

instance {ε α : Type} [DecidableEq ε] [DecidableEq α] : DecidableEq (Except ε α) := by
  intro a b
  cases a <;> cases b
  case error.error e f =>
    exact if h : e = f then Decidable.isTrue (by rw [h]) else
      Decidable.isFalse (fun hc => by cases hc; exact h rfl)
  case error.ok e x => exact Decidable.isFalse (fun hc => by cases hc)
  case ok.error x e => exact Decidable.isFalse (fun hc => by cases hc)
  case ok.ok x y =>
    exact if h : x = y then Decidable.isTrue (by rw [h]) else
      Decidable.isFalse (fun hc => by cases hc; exact h rfl)

/-- The four ASCII whitespace characters; models the characters removed by
Python's `str.strip()`. -/
def isWs (c : Char) : Bool :=
  c = ' ' || c = '\t' || c = '\r' || c = '\n'

/-- Drop the longest all-whitespace suffix of a list of characters. -/
def dropTrailWs (s : List Char) : List Char :=
  ((s.reverse).dropWhile isWs).reverse

/-- Python `str.strip()`: remove leading and trailing whitespace. -/
def pyStrip (s : List Char) : List Char :=
  dropTrailWs (s.dropWhile isWs)

/-- `isPref p s` holds when `p` is a prefix of `s` (Boolean). -/
def isPref : List Char → List Char → Bool
  | [], _ => true
  | _ :: _, [] => false
  | a :: as, b :: bs => a = b && isPref as bs

/-- A character allowed in a YouTube video id: `[0-9A-Za-z_-]`
(from the regex in `extract_video_id`, src/main.py line 43). -/
def isIdChar (c : Char) : Bool :=
  ('0' ≤ c && c ≤ '9') || ('A' ≤ c && c ≤ 'Z') || ('a' ≤ c && c ≤ 'z')
    || c = '_' || c = '-'

/-- The alternation of the regex in `extract_video_id`, in source order:
`v=`, `youtu.be/`, `shorts/`, `embed/`, `/v/`. -/
def vidPatterns : List (List Char) :=
  ["v=".toList, "youtu.be/".toList, "shorts/".toList, "embed/".toList, "/v/".toList]

/-- Try one alternation branch at the current position: the branch literal
must be a prefix and must be followed by 11 id characters; on success return
those 11 characters (the capture group). -/
def tryPat (p s : List Char) : Option (List Char) :=
  if isPref p s = true then
    if ((s.drop p.length).take 11).length = 11 ∧ ((s.drop p.length).take 11).all isIdChar = true
    then some ((s.drop p.length).take 11)
    else none
  else none

/-- Try all alternation branches at the current position, in source order
(regex backtracking at a fixed position). -/
def tryPatterns (s : List Char) : Option (List Char) :=
  vidPatterns.findSome? (fun p => tryPat p s)

/-- `re.search`: scan positions left to right, return the capture of the
leftmost match. -/
def searchVid : List Char → Option (List Char)
  | [] => tryPatterns []
  | c :: t =>
    match tryPatterns (c :: t) with
    | some r => some r
    | none => searchVid t

/-- The error message raised by `extract_video_id` on no match. -/
def invalidUrlMsg : List Char :=
  "Invalid YouTube URL (could not find video id).".toList

/-- `extract_video_id` (src/main.py lines 41-46): strip the input, search
for a known URL pattern followed by an 11-character id, return the first
match or fail with `ValueError`. -/
def extract_video_id (url : List Char) : Except (List Char) (List Char) :=
  match searchVid (pyStrip url) with
  | some vid => Except.ok vid
  | none => Except.error invalidUrlMsg

/-- The declarative match predicate, from the spec's words: position `i` of
`s` carries one of the URL patterns immediately followed by 11 id
characters, and `id` is that 11-character capture. -/
def MatchesAt (s : List Char) (i : Nat) (id : List Char) : Prop :=
  ∃ p ∈ vidPatterns, isPref p (s.drop i) = true ∧
    id = ((s.drop i).drop p.length).take 11 ∧
    id.length = 11 ∧ id.all isIdChar = true

instance decMatchesAt (s : List Char) (i : Nat) (id : List Char) :
    Decidable (MatchesAt s i id) := by
  unfold MatchesAt
  infer_instance

/-- The spec-side success condition of `extract`: some position matches. -/
def HasVidPattern (s : List Char) : Prop :=
  ∃ i id, MatchesAt s i id

/-- A Python value as it can appear in a caption item's fields: `None`, a
number (`int`/`float`, modelled as `ℚ`), or a string.  (Container values
are outside the model.) -/
inductive PyVal where
  | vNone
  | vNum (q : ℚ)
  | vStr (s : List Char)
deriving DecidableEq

/-- Python truthiness for the modelled values. -/
def pyTruthy : PyVal → Bool
  | .vNone => false
  | .vNum q => q ≠ 0
  | .vStr s => s ≠ []

/-- Python `a or b` (on the modelled values). -/
def pyOr (a b : PyVal) : PyVal := if pyTruthy a then a else b

/-- The Python exception classes crossing the modelled code, each carrying
its `str(e)` message. -/
inductive PyErr where
  | ipBlocked (msg : List Char)
  | requestBlocked (msg : List Char)
  | transcriptsDisabled (msg : List Char)
  | noTranscriptFound (msg : List Char)
  | videoUnavailable (msg : List Char)
  | valueError (msg : List Char)
  | typeError (msg : List Char)
  | attributeError (msg : List Char)
  | connectionError (msg : List Char)
  | runtimeError (msg : List Char)
  | otherError (msg : List Char)
deriving DecidableEq

/-- `str(e)`: the message carried by an exception. -/
def PyErr.msg : PyErr → List Char
  | .ipBlocked m => m
  | .requestBlocked m => m
  | .transcriptsDisabled m => m
  | .noTranscriptFound m => m
  | .videoUnavailable m => m
  | .valueError m => m
  | .typeError m => m
  | .attributeError m => m
  | .connectionError m => m
  | .runtimeError m => m
  | .otherError m => m

/-- Numeric value of a digit string. -/
def digitsVal (ds : List Char) : Nat :=
  ds.foldl (fun a c => a * 10 + (c.toNat - '0'.toNat)) 0

/-- Parse the optional exponent part of a float literal; the whole rest of
the input must be consumed. -/
def parseExp (s : List Char) : Option Int :=
  match s with
  | [] => some 0
  | e :: rest =>
    if e = 'e' ∨ e = 'E' then
      match rest with
      | '+' :: ds =>
        if ds ≠ [] ∧ ds.all Char.isDigit then some ((digitsVal ds : Int)) else none
      | '-' :: ds =>
        if ds ≠ [] ∧ ds.all Char.isDigit then some (-(digitsVal ds : Int)) else none
      | ds =>
        if ds ≠ [] ∧ ds.all Char.isDigit then some ((digitsVal ds : Int)) else none
    else none

/-- Parse the mantissa of a float literal: digits with an optional
fractional part; returns the mantissa digits' value, the number of
fractional digits, and the unconsumed rest. -/
def parseMant (s : List Char) : Option (Nat × Nat × List Char) :=
  match s.dropWhile Char.isDigit with
  | '.' :: r2 =>
    if s.takeWhile Char.isDigit = [] ∧ r2.takeWhile Char.isDigit = [] then none
    else some (digitsVal (s.takeWhile Char.isDigit ++ r2.takeWhile Char.isDigit),
      (r2.takeWhile Char.isDigit).length, r2.dropWhile Char.isDigit)
  | r1 =>
    if s.takeWhile Char.isDigit = [] then none
    else some (digitsVal (s.takeWhile Char.isDigit), 0, r1)

/-- Python `float(string)` on finite decimal literals: optional surrounding
whitespace, optional sign, digits with optional fraction and exponent.
(The `inf`/`nan` spellings and digit-group underscores are outside the
model.) -/
def parsePyFloat (s : List Char) : Option ℚ :=
  let t := pyStrip s
  let sb : ℚ × List Char :=
    match t with
    | '+' :: r => (1, r)
    | '-' :: r => (-1, r)
    | r => (1, r)
  match parseMant sb.2 with
  | none => none
  | some mfr =>
    match parseExp mfr.2.2 with
    | none => none
    | some e =>
      if 0 ≤ e - (mfr.2.1 : Int)
      then some (sb.1 * mfr.1 * (10 : ℚ) ^ (e - (mfr.2.1 : Int)).toNat)
      else some (sb.1 * mfr.1 / (10 : ℚ) ^ (-(e - (mfr.2.1 : Int))).toNat)

/-- Python `float(v)` on a modelled value. -/
def pyFloat : PyVal → Except PyErr ℚ
  | .vNum q => .ok q
  | .vStr s =>
    match parsePyFloat s with
    | some q => .ok q
    | none => .error (.valueError ("could not convert string to float: ".toList ++ s))
  | .vNone =>
    .error (.typeError "float() argument must be a string or a real number, not NoneType".toList)

/-- A raw caption item from the upstream library: either a mapping (`dict`)
or an object exposing attributes; both carry named fields. -/
inductive RawItem where
  | mapItem (fields : List (List Char × PyVal))
  | objItem (fields : List (List Char × PyVal))
deriving DecidableEq

/-- Python `dict.get(key, default)`. -/
def dictGet (fields : List (List Char × PyVal)) (key : List Char) (dflt : PyVal) : PyVal :=
  match fields.find? (fun kv => kv.1 = key) with
  | some kv => kv.2
  | none => dflt

/-- Python `getattr(obj, name, default)` on the modelled attribute set. -/
def getattrD (fields : List (List Char × PyVal)) (key : List Char) (dflt : PyVal) : PyVal :=
  match fields.find? (fun kv => kv.1 = key) with
  | some kv => kv.2
  | none => dflt

/-- A normalized caption item: the dict
`{"text": ..., "start": float, "duration": float}` built by
`_normalize_items`; `text` keeps whatever value the raw item carried. -/
structure NormItem where
  text : PyVal
  start : ℚ
  duration : ℚ
deriving DecidableEq

/-- One iteration of the loop in `_normalize_items`
(src/main.py lines 55-71). -/
def normalizeItem (it : RawItem) : Except PyErr NormItem :=
  match it with
  | .mapItem f => do
    let s ← pyFloat (pyOr (dictGet f "start".toList (.vNum 0)) (.vNum 0))
    let d ← pyFloat (pyOr (dictGet f "duration".toList (.vNum 0)) (.vNum 0))
    Except.ok ⟨pyOr (dictGet f "text".toList (.vStr [])) (.vStr []), s, d⟩
  | .objItem f => do
    let s ← pyFloat (pyOr (getattrD f "start".toList (.vNum 0)) (.vNum 0))
    let d ← pyFloat (pyOr (getattrD f "duration".toList (.vNum 0)) (.vNum 0))
    Except.ok ⟨pyOr (getattrD f "text".toList (.vStr [])) (.vStr []), s, d⟩

/-- `_normalize_items` (src/main.py lines 49-72). -/
def normalize_items (items : List RawItem) : Except PyErr (List NormItem) :=
  items.mapM normalizeItem

/-- Python `"\n".join`. -/
def joinNl : List (List Char) → List Char
  | [] => []
  | [x] => x
  | x :: xs => x ++ '\n' :: joinNl xs

/-- `text.replace("\n", " ")`. -/
def replaceNl (s : List Char) : List Char :=
  s.map (fun c => if c = '\n' then ' ' else c)

/-- `x["text"].replace("\n", " ").strip()`: needs the value to be a string;
on any other value Python raises `AttributeError` (no `replace` method). -/
def lineOf (v : PyVal) : Except PyErr (List Char) :=
  match v with
  | .vStr s => .ok (pyStrip (replaceNl s))
  | _ => .error (.attributeError "object has no attribute replace".toList)

/-- The list comprehension of src/main.py line 98: keep items whose `text`
value is truthy, and build each kept line. -/
def buildLines (norm : List NormItem) : Except PyErr (List (List Char)) :=
  (norm.filter (fun x => pyTruthy x.text)).mapM (fun x => lineOf x.text)

/-- src/main.py lines 98-99: the joined, stripped transcript text. -/
def formatTranscript (norm : List NormItem) : Except PyErr (List Char) := do
  let lines ← buildLines norm
  Except.ok (pyStrip (joinNl lines))

/-- The message of the `ConnectionError` raised on retry exhaustion
(src/main.py line 110). -/
def blockedMsg : List Char := "Blocked by YouTube (IP/Request blocked). Try later.".toList

/-- The message of the `ValueError` raised on an empty joined transcript
(src/main.py line 102). -/
def emptyTranscriptMsg : List Char := "Transcript returned empty text.".toList

/-- The `except (IpBlocked, RequestBlocked)` clause (line 105). -/
def isBlockedExc : PyErr → Bool
  | .ipBlocked _ => true
  | .requestBlocked _ => true
  | _ => false

/-- The `except (TranscriptsDisabled, NoTranscriptFound, VideoUnavailable)`
clause (line 111). -/
def isPermanentExc : PyErr → Bool
  | .transcriptsDisabled _ => true
  | .noTranscriptFound _ => true
  | .videoUnavailable _ => true
  | _ => false

/-- One execution of the `try` body of `fetch_transcript_text`
(src/main.py lines 86-103): call the upstream, normalize, join, and fail
with `ValueError` on an empty result. -/
def attemptBody (up : Nat → Except PyErr (List RawItem)) (attempt : Nat) :
    Except PyErr (List Char) := do
  let items ← up attempt
  let norm ← normalize_items items
  let text ← formatTranscript norm
  if text = [] then Except.error (.valueError emptyTranscriptMsg) else Except.ok text

/-- The observable outcome of `fetch_transcript_text`: the returned value
(`Except.ok none` models Python's implicit `return None` when the loop body
never runs), the sleep durations performed in order, and the number of
upstream attempts made. -/
structure FetchOut where
  result : Except PyErr (Option (List Char))
  sleeps : List Int
  attempts : Nat
deriving DecidableEq

/-- The `for attempt in range(max_retries)` loop of `fetch_transcript_text`
(src/main.py lines 84-118).  `fuel` is the number of remaining loop
iterations; `attempt` is the current loop index. -/
def fetchLoop (up : Nat → Except PyErr (List RawItem)) (max_retries retry_delay : Int) :
    Nat → Nat → FetchOut
  | _, 0 => ⟨Except.ok none, [], 0⟩
  | attempt, fuel + 1 =>
    match attemptBody up attempt with
    | .ok t => ⟨Except.ok (some t), [], 1⟩
    | .error e =>
      if isBlockedExc e then
        if (attempt : Int) < max_retries - 1 then
          let out := fetchLoop up max_retries retry_delay (attempt + 1) fuel
          ⟨out.result, retry_delay * ((attempt : Int) + 1) :: out.sleeps, out.attempts + 1⟩
        else ⟨Except.error (.connectionError blockedMsg), [], 1⟩
      else if isPermanentExc e then ⟨Except.error (.valueError e.msg), [], 1⟩
      else
        if (attempt : Int) < max_retries - 1 then
          let out := fetchLoop up max_retries retry_delay (attempt + 1) fuel
          ⟨out.result, retry_delay * ((attempt : Int) + 1) :: out.sleeps, out.attempts + 1⟩
        else ⟨Except.error (.runtimeError e.msg), [], 1⟩

/-- `fetch_transcript_text(video_id, max_retries, retry_delay)`
(src/main.py lines 75-118).  The upstream captions provider is passed as a
function from the attempt index to its outcome; the video id only flows
into that call, so it is absorbed into `up`. -/
def fetch_transcript_text (up : Nat → Except PyErr (List RawItem))
    (max_retries retry_delay : Int) : FetchOut :=
  fetchLoop up max_retries retry_delay 0 max_retries.toNat

/-- JSON documents, for the summarization response. -/
inductive Json where
  | null
  | jBool (b : Bool)
  | num (q : ℚ)
  | str (s : List Char)
  | arr (l : List Json)
  | obj (fields : List (List Char × Json))

/-- Python truthiness of a parsed JSON value. -/
def jTruthy : Json → Bool
  | .null => false
  | .jBool b => b
  | .num q => q ≠ 0
  | .str s => s ≠ []
  | .arr l => !l.isEmpty
  | .obj f => !f.isEmpty

/-- Python `dict.get(k)` on a JSON object: `None` when the key is absent. -/
def jGet (fields : List (List Char × Json)) (key : List Char) : Json :=
  match fields.find? (fun kv => kv.1 = key) with
  | some kv => kv.2
  | none => .null

/-- Python `dict.get(k, default)` on a JSON object. -/
def jGetD (fields : List (List Char × Json)) (key : List Char) (dflt : Json) : Json :=
  match fields.find? (fun kv => kv.1 = key) with
  | some kv => kv.2
  | none => dflt

/-- Python `a or b` on JSON values. -/
def jOr (a b : Json) : Json := if jTruthy a then a else b

/-- The modelled `str(e)` of the `AttributeError` raised by `.get` on a
non-dict list element (the exact Python wording is irrelevant here). -/
def attrGetMsg : List Char := "object has no attribute get".toList

/-- src/main.py lines 154-159: extract the summary value from the parsed
response; `.get` on a non-dict first element raises, captured as an error. -/
def parse_hf_response (data : Json) : Except (List Char) Json :=
  match data with
  | .arr (x :: _) =>
    match x with
    | .obj f =>
      .ok (jOr (jGet f "summary_text".toList) (jGetD f "generated_text".toList (.str [])))
    | _ => .error attrGetMsg
  | .obj f =>
    .ok (jOr (jGet f "summary_text".toList) (jGetD f "generated_text".toList (.str [])))
  | _ => .ok (.str [])

/-- The outcome of `requests.post` + `raise_for_status()` + `r.json()`:
either some exception (connection failure, non-2xx status, undecodable
body), or a parsed JSON document. -/
inductive NetResult where
  | netExc (msg : List Char)
  | netJson (data : Json)

/-- Process-wide configuration read from the environment at startup
(src/main.py lines 22-24); `hf_token` is already stripped. -/
structure Config where
  enable_summary : Bool
  hf_token : List Char

/-- The prefix of the placeholder string built on a summarization failure
(src/main.py line 162). -/
def hfErrPrefix : List Char := "HF Inference error: ".toList

/-- `summarize_with_hf(text)` (src/main.py lines 121-162).  The `text`
argument is an `Option` because the route handler passes the fetch result
through, which is `None` when the fetch loop runs zero iterations;
`(text or "")` maps `None` to the empty string.  The network interaction
is passed as a `NetResult`; the payload truncation `text[:6000]` does not
affect the modelled response handling. -/
def summarize_with_hf (cfg : Config) (text : Option (List Char)) (net : NetResult) : Json :=
  if cfg.enable_summary = false then .str []
  else if cfg.hf_token = [] then .str []
  else if pyStrip (text.getD []) = [] then .str []
  else
    match net with
    | .netExc m => .str (hfErrPrefix ++ m)
    | .netJson data =>
      match parse_hf_response data with
      | .ok v => v
      | .error m => .str (hfErrPrefix ++ m)

/-- The body of a `/summarize` request (`Req`, src/main.py lines 34-38). -/
structure Req where
  url : List Char
  max_retries : Int
  retry_delay : Int
  summarize : Bool

/-- The flat JSON response of the `/summarize` route. -/
structure Resp where
  video_id : List Char
  transcript : Json
  summary : Json
  error : List Char

/-- `summarize_post` (src/main.py lines 185-193): the `try` block covers id
extraction, transcript fetch and summarization; any exception is converted
to the uniform error response with `str(e)` in `error`. -/
def summarize_post (cfg : Config) (req : Req) (up : Nat → Except PyErr (List RawItem))
    (net : NetResult) : Resp :=
  match extract_video_id req.url with
  | .error msg => ⟨[], .str [], .str [], msg⟩
  | .ok vid =>
    match (fetch_transcript_text up req.max_retries req.retry_delay).result with
    | .error e => ⟨[], .str [], .str [], e.msg⟩
    | .ok otext =>
      ⟨vid, (match otext with | some t => .str t | none => .null),
        (if req.summarize then summarize_with_hf cfg otext net else .str []), []⟩

/-- Spec-side (claim C4's words): transform every item's text, keep only
the ones that are non-empty after trimming, and newline-join them. -/
def specFormatC4 (ts : List (List Char)) : List Char :=
  joinNl ((ts.map (fun t => pyStrip (replaceNl t))).filter (fun t => t ≠ []))

/-- The per-item line contribution of the code's formatting step, for items
whose text is a string: items with empty raw text are dropped; the rest are
newline-replaced and trimmed (possibly to the empty string). -/
def fmtStr (x : NormItem) : Option (List Char) :=
  match x.text with
  | .vStr t => if t = [] then none else some (pyStrip (replaceNl t))
  | _ => none

/-- Spec-side (claim C5's words, amended): the defaulted numeric value of a
raw field: falsy values (missing, `None`, `0`, `""`) give `0.0`, truthy
convertible values their float value. -/
def defaultedNum (v : PyVal) : ℚ :=
  if pyTruthy v then ((pyFloat v).toOption.getD 0) else 0

/-- Spec-side: the text value stored for a raw field. -/
def defaultedText (v : PyVal) : PyVal :=
  if pyTruthy v then v else .vStr []

/-- The raw field value an item exposes (mapping key or attribute). -/
def rawGet (it : RawItem) (k : List Char) (d : PyVal) : PyVal :=
  match it with
  | .mapItem f => dictGet f k d
  | .objItem f => getattrD f k d

/-- A field value that `float(... or 0.0)` accepts: falsy, or convertible. -/
def fieldOk (v : PyVal) : Bool :=
  if pyTruthy v then (pyFloat v).isOk else true

/-- An item whose `start` and `duration` fields survive normalization. -/
def itemOk (it : RawItem) : Bool :=
  fieldOk (rawGet it "start".toList (.vNum 0)) && fieldOk (rawGet it "duration".toList (.vNum 0))

/-- Whether an association list has a key. -/
def hasKey (f : List (List Char × Json)) (k : List Char) : Bool :=
  (f.find? (fun kv => kv.1 = k)).isSome

/-- Whether a JSON value is a string. -/
def isStrVal : Json → Bool
  | .str _ => true
  | _ => false

/-- Spec-side (claim C7's words): a success record is an object carrying a
string-valued `summary_text` or `generated_text` entry. -/
def resultRecord (j : Json) : Bool :=
  match j with
  | .obj f =>
    (hasKey f "summary_text".toList && isStrVal (jGet f "summary_text".toList))
      || (hasKey f "generated_text".toList && isStrVal (jGet f "generated_text".toList))
  | _ => false

/-- Spec-side: a success-shaped response: a list whose first element is a
success record, or a single success record. -/
def successShape (data : Json) : Bool :=
  match data with
  | .arr (x :: _) => resultRecord x
  | _ => resultRecord data

/-- Code-side shape (claim C7 amended): a record whose `summary_text` value
is truthy or which has a `generated_text` entry of any value — exactly the
records from which the code returns a raw extracted value. -/
def carriesSummary (j : Json) : Bool :=
  match j with
  | .obj f => jTruthy (jGet f "summary_text".toList) || hasKey f "generated_text".toList
  | _ => false

/-- A response whose extracted value is taken raw from the record. -/
def carryingShape (data : Json) : Bool :=
  match data with
  | .arr (x :: _) => carriesSummary x
  | _ => carriesSummary data

/-- A constantly rate-limited upstream (witness input). -/
def upBlockedConst : Nat → Except PyErr (List RawItem) :=
  fun _ => .error (.ipBlocked "blocked".toList)

/-- An upstream failing with an uncategorized error (counterexample input). -/
def upOtherConst : Nat → Except PyErr (List RawItem) :=
  fun _ => .error (.otherError "boom".toList)

/-- An upstream with captions disabled (witness input). -/
def upDisabledConst : Nat → Except PyErr (List RawItem) :=
  fun _ => .error (.transcriptsDisabled "disabled".toList)

/-- An upstream returning one well-formed caption item (witness input). -/
def upHello : Nat → Except PyErr (List RawItem) :=
  fun _ => .ok [.mapItem [("text".toList, .vStr "hello".toList),
    ("start".toList, .vNum 0), ("duration".toList, .vNum 1)]]

/-- A configuration with summarization enabled and a token (witness input). -/
def cfgTok : Config := ⟨true, "t".toList⟩

/-- A configuration with summarization disabled (witness input). -/
def cfgOff : Config := ⟨false, []⟩

/-- A configuration with no credential (witness input). -/
def cfgNoTok : Config := ⟨true, []⟩

/-- A failing network interaction (witness input). -/
def netX : NetResult := .netExc "x".toList

/-- A request with `max_retries = 0` (witness input). -/
def reqZero : Req := ⟨"v=dQw4w9WgXcQ".toList, 0, 2, true⟩

/-- A request with `max_retries = 1` (witness input). -/
def reqOne : Req := ⟨"v=dQw4w9WgXcQ".toList, 1, 0, true⟩

end YTB

namespace YTB

lemma isWs_cases {c : Char} (h : isWs c = true) :
    c = ' ' ∨ c = '\t' ∨ c = '\r' ∨ c = '\n' := by
  simp [isWs] at h
  tauto

lemma ws_not_idChar {c : Char} (h : isWs c = true) : isIdChar c = false := by
  rcases isWs_cases h with h | h | h | h <;> subst h <;> decide

lemma isPref_iff_take {p s : List Char} : isPref p s = true ↔ s.take p.length = p := by
  induction p generalizing s with
  | nil => simp [isPref]
  | cons a as ih =>
    cases s with
    | nil => simp [isPref]
    | cons b bs =>
      simp only [isPref, Bool.and_eq_true, decide_eq_true_eq, List.length_cons,
        List.take_succ_cons, List.cons.injEq, ih]
      constructor
      · rintro ⟨h1, h2⟩; exact ⟨h1.symm, h2⟩
      · rintro ⟨h1, h2⟩; exact ⟨h1.symm, h2⟩

lemma isPref_length_le {p s : List Char} (h : isPref p s = true) :
    p.length ≤ s.length := by
  rw [isPref_iff_take] at h
  have h2 := congrArg List.length h
  rw [List.length_take] at h2
  omega

lemma isPref_append_right {p s : List Char} (u : List Char) (h : isPref p s = true) :
    isPref p (s ++ u) = true := by
  have hl := isPref_length_le h
  rw [isPref_iff_take] at h ⊢
  rw [List.take_append_eq_append_take, h, Nat.sub_eq_zero_of_le hl, List.take_zero,
    List.append_nil]

lemma isPref_append_left {p s u : List Char} (h : isPref p (s ++ u) = true)
    (hl : p.length ≤ s.length) : isPref p s = true := by
  rw [isPref_iff_take] at h ⊢
  rw [List.take_append_eq_append_take, Nat.sub_eq_zero_of_le hl, List.take_zero,
    List.append_nil] at h
  exact h

lemma tryPat_eq_some_iff {p s id : List Char} :
    tryPat p s = some id ↔
      isPref p s = true ∧ id = (s.drop p.length).take 11 ∧
        id.length = 11 ∧ id.all isIdChar = true := by
  unfold tryPat
  by_cases h1 : isPref p s = true
  · rw [if_pos h1]
    by_cases h2 : ((s.drop p.length).take 11).length = 11 ∧
        ((s.drop p.length).take 11).all isIdChar = true
    · rw [if_pos h2]
      constructor
      · intro hc
        injection hc with hc
        subst hc
        exact ⟨h1, rfl, h2.1, h2.2⟩
      · rintro ⟨_, rfl, _, _⟩; rfl
    · rw [if_neg h2]
      constructor
      · intro hc; cases hc
      · rintro ⟨_, rfl, h3, h4⟩; exact absurd ⟨h3, h4⟩ h2
  · rw [if_neg h1]
    constructor
    · intro hc; cases hc
    · rintro ⟨hp, _, _, _⟩; exact absurd hp h1

lemma take11_append_ws_all_false {r w : List Char} (hw : ∀ c ∈ w, isWs c = true)
    (hr : r.length < 11) (hlen : 11 ≤ r.length + w.length) :
    ((r ++ w).take 11).all isIdChar = false := by
  rw [List.take_append_eq_append_take, List.take_of_length_le (le_of_lt hr)]
  cases w with
  | nil => simp at hlen; omega
  | cons c w2 =>
    have hk : 11 - r.length = (11 - r.length - 1) + 1 := by omega
    rw [hk, List.take_succ_cons, List.all_append]
    have hid : isIdChar c = false := ws_not_idChar (hw c (by simp))
    simp [hid]

lemma tryPat_append_ws (p core w : List Char) (hpw : p.all (fun c => !isWs c) = true)
    (hw : ∀ c ∈ w, isWs c = true) : tryPat p (core ++ w) = tryPat p core := by
  cases hpre : isPref p core
  · cases hpre2 : isPref p (core ++ w)
    · simp [tryPat, hpre, hpre2]
    · exfalso
      rcases le_or_lt p.length core.length with hle | hgt
      · rw [isPref_append_left hpre2 hle] at hpre; cases hpre
      · have hsplit := isPref_iff_take.mp hpre2
        rw [List.take_append_eq_append_take, List.take_of_length_le (le_of_lt hgt)] at hsplit
        have htk : (w.take (p.length - core.length)).length = p.length - core.length := by
          have hlen2 := congrArg List.length hsplit
          rw [List.length_append, List.length_take] at hlen2
          rw [List.length_take]
          omega
        obtain ⟨c, hc⟩ : ∃ c, c ∈ w.take (p.length - core.length) := by
          apply List.exists_mem_of_ne_nil
          intro h0
          rw [h0] at htk
          simp at htk
          omega
        have hcw : c ∈ w := (List.take_sublist _ w).mem hc
        have hcp : c ∈ p := by rw [← hsplit]; exact List.mem_append_right _ hc
        have hb1 := hw c hcw
        have hb2 := List.all_eq_true.mp hpw c hcp
        simp [hb1] at hb2
  · have hpre2 := isPref_append_right w hpre
    have hl := isPref_length_le hpre
    have hd1 : (core ++ w).drop p.length = core.drop p.length ++ w := by
      rw [List.drop_append_eq_append_drop, Nat.sub_eq_zero_of_le hl, List.drop_zero]
    unfold tryPat
    rw [if_pos hpre, if_pos hpre2, hd1]
    rcases le_or_lt 11 (core.drop p.length).length with h11 | h11
    · have ht : (core.drop p.length ++ w).take 11 = (core.drop p.length).take 11 := by
        rw [List.take_append_eq_append_take, Nat.sub_eq_zero_of_le h11, List.take_zero,
          List.append_nil]
      rw [ht]
    · have hrt : (core.drop p.length).take 11 = core.drop p.length :=
        List.take_of_length_le (le_of_lt h11)
      rw [hrt]
      have hcond2 : ¬ ((core.drop p.length).length = 11 ∧
          (core.drop p.length).all isIdChar = true) := by
        intro hcc; exact absurd hcc.1 (Nat.ne_of_lt h11)
      rw [if_neg hcond2]
      rcases le_or_lt 11 ((core.drop p.length).length + w.length) with hge | hlt
      · have hall := take11_append_ws_all_false hw h11 hge
        have hcond1 : ¬ (((core.drop p.length ++ w).take 11).length = 11 ∧
            ((core.drop p.length ++ w).take 11).all isIdChar = true) := by
          intro hcc; rw [hall] at hcc; cases hcc.2
        rw [if_neg hcond1]
      · have hta : (core.drop p.length ++ w).take 11 = core.drop p.length ++ w := by
          apply List.take_of_length_le
          rw [List.length_append]
          omega
        have hcond1 : ¬ (((core.drop p.length ++ w).take 11).length = 11 ∧
            ((core.drop p.length ++ w).take 11).all isIdChar = true) := by
          rw [hta]
          intro hcc
          have hx := hcc.1
          rw [List.length_append] at hx
          omega
        rw [if_neg hcond1]

lemma tryPatterns_append_ws (core w : List Char) (hw : ∀ c ∈ w, isWs c = true) :
    tryPatterns (core ++ w) = tryPatterns core := by
  unfold tryPatterns vidPatterns
  simp only [List.findSome?_cons, List.findSome?_nil]
  rw [tryPat_append_ws "v=".toList core w (by decide) hw,
    tryPat_append_ws "youtu.be/".toList core w (by decide) hw,
    tryPat_append_ws "shorts/".toList core w (by decide) hw,
    tryPat_append_ws "embed/".toList core w (by decide) hw,
    tryPat_append_ws "/v/".toList core w (by decide) hw]

lemma tryPatterns_ws_head {c : Char} (hc : isWs c = true) (t : List Char) :
    tryPatterns (c :: t) = none := by
  rcases isWs_cases hc with h | h | h | h <;> subst h <;> rfl

lemma searchVid_cons (c : Char) (t : List Char) :
    searchVid (c :: t) = (match tryPatterns (c :: t) with
      | some r => some r
      | none => searchVid t) := rfl

lemma searchVid_cons_none {c : Char} {t : List Char} (h : tryPatterns (c :: t) = none) :
    searchVid (c :: t) = searchVid t := by
  rw [searchVid_cons, h]

lemma searchVid_cons_some {c : Char} {t r : List Char} (h : tryPatterns (c :: t) = some r) :
    searchVid (c :: t) = some r := by
  rw [searchVid_cons, h]

lemma searchVid_ws_all {w : List Char} (hw : ∀ c ∈ w, isWs c = true) :
    searchVid w = none := by
  induction w with
  | nil => rfl
  | cons c t ih =>
    rw [searchVid_cons_none (tryPatterns_ws_head (hw c (by simp)) t)]
    exact ih (fun x hx => hw x (by simp [hx]))

lemma searchVid_append_ws_left {w t : List Char} (hw : ∀ c ∈ w, isWs c = true) :
    searchVid (w ++ t) = searchVid t := by
  induction w with
  | nil => rfl
  | cons c w2 ih =>
    rw [List.cons_append,
      searchVid_cons_none (tryPatterns_ws_head (hw c (by simp)) (w2 ++ t))]
    exact ih (fun x hx => hw x (by simp [hx]))

lemma searchVid_append_ws_right {core w : List Char} (hw : ∀ c ∈ w, isWs c = true) :
    searchVid (core ++ w) = searchVid core := by
  induction core with
  | nil => simpa using searchVid_ws_all hw
  | cons c core2 ih =>
    have h1 : tryPatterns (c :: (core2 ++ w)) = tryPatterns (c :: core2) := by
      rw [← List.cons_append]
      exact tryPatterns_append_ws (c :: core2) w hw
    rw [List.cons_append]
    cases h2 : tryPatterns (c :: core2) with
    | some r =>
      rw [searchVid_cons_some (h1.trans h2), searchVid_cons_some h2]
    | none =>
      rw [searchVid_cons_none (h1.trans h2), searchVid_cons_none h2, ih]

lemma searchVid_pyStrip (s : List Char) : searchVid (pyStrip s) = searchVid s := by
  unfold pyStrip dropTrailWs
  have h1 : searchVid s = searchVid (s.dropWhile isWs) := by
    conv_lhs => rw [← List.takeWhile_append_dropWhile isWs s]
    exact searchVid_append_ws_left (fun c hc => List.mem_takeWhile_imp hc)
  have hdecomp : s.dropWhile isWs =
      ((s.dropWhile isWs).reverse.dropWhile isWs).reverse ++
        ((s.dropWhile isWs).reverse.takeWhile isWs).reverse := by
    rw [← List.reverse_append, List.takeWhile_append_dropWhile, List.reverse_reverse]
  have h2 : searchVid (s.dropWhile isWs) =
      searchVid (((s.dropWhile isWs).reverse.dropWhile isWs).reverse) := by
    conv_lhs => rw [hdecomp]
    exact searchVid_append_ws_right
      (fun c hc => List.mem_takeWhile_imp (List.mem_reverse.mp hc))
  rw [h1, h2]

lemma tryPatterns_some_matches {s id : List Char} (h : tryPatterns s = some id) :
    MatchesAt s 0 id := by
  obtain ⟨p, hp, hps⟩ := List.exists_of_findSome?_eq_some h
  rw [tryPat_eq_some_iff] at hps
  exact ⟨p, hp, by simpa using hps.1, by simpa using hps.2.1, hps.2.2.1, hps.2.2.2⟩

lemma tryPatterns_none_not_matches {s : List Char} (h : tryPatterns s = none) :
    ∀ id, ¬ MatchesAt s 0 id := by
  intro id hm
  obtain ⟨p, hp, h1, h2, h3, h4⟩ := hm
  have hsome : tryPat p s = some id := by
    rw [tryPat_eq_some_iff]
    exact ⟨by simpa using h1, by simpa using h2, h3, h4⟩
  unfold tryPatterns at h
  rw [List.findSome?_eq_none_iff] at h
  rw [h p hp] at hsome
  cases hsome

lemma matchesAt_cons_succ {c : Char} {t : List Char} {j : Nat} {id : List Char} :
    MatchesAt (c :: t) (j + 1) id ↔ MatchesAt t j id := by
  unfold MatchesAt
  simp [List.drop_succ_cons]

lemma searchVid_none_iff (s : List Char) :
    searchVid s = none ↔ ∀ i id, ¬ MatchesAt s i id := by
  induction s with
  | nil =>
    constructor
    · intro _ i id hm
      obtain ⟨p, hp, h1, _, _, _⟩ := hm
      have hne : p ≠ [] := by
        have hall : ∀ q ∈ vidPatterns, q ≠ [] := by decide
        exact hall p hp
      cases p with
      | nil => exact hne rfl
      | cons a as => rw [List.drop_nil] at h1; simp [isPref] at h1
    · intro _; rfl
  | cons c t ih =>
    cases h : tryPatterns (c :: t) with
    | some r =>
      rw [searchVid_cons_some h]
      constructor
      · intro hs; cases hs
      · intro hall
        exact absurd (tryPatterns_some_matches h) (hall 0 r)
    | none =>
      rw [searchVid_cons_none h, ih]
      constructor
      · intro hall i id hm
        cases i with
        | zero => exact tryPatterns_none_not_matches h id hm
        | succ j => exact hall j id (matchesAt_cons_succ.mp hm)
      · intro hall j id hm
        exact hall (j + 1) id (matchesAt_cons_succ.mpr hm)

lemma searchVid_some_first {s id : List Char} (h : searchVid s = some id) :
    ∃ i, MatchesAt s i id ∧ ∀ j id2, MatchesAt s j id2 → i ≤ j := by
  induction s with
  | nil =>
    rw [show searchVid ([] : List Char) = none from rfl] at h
    cases h
  | cons c t ih =>
    cases htp : tryPatterns (c :: t) with
    | some r =>
      rw [searchVid_cons_some htp] at h
      injection h with h
      subst h
      exact ⟨0, tryPatterns_some_matches htp, fun j id2 _ => Nat.zero_le j⟩
    | none =>
      rw [searchVid_cons_none htp] at h
      obtain ⟨i, hm, hmin⟩ := ih h
      refine ⟨i + 1, matchesAt_cons_succ.mpr hm, ?_⟩
      intro j id2 hmj
      cases j with
      | zero => exact absurd hmj (tryPatterns_none_not_matches htp id2)
      | succ j2 => exact Nat.succ_le_succ (hmin j2 id2 (matchesAt_cons_succ.mp hmj))

lemma extract_video_id_eq_searchVid (s : List Char) :
    extract_video_id s = (match searchVid s with
      | some vid => Except.ok vid
      | none => Except.error invalidUrlMsg) := by
  unfold extract_video_id
  rw [searchVid_pyStrip]

/-- C3: for every string containing one of the patterns `v=`, `youtu.be/`,
`shorts/`, `embed/`, `/v/` immediately followed by 11 characters from
`[0-9A-Za-z_-]`, `extract_video_id` returns the 11-character capture of
the leftmost such match; for every string containing no such pattern it
fails with the invalid-URL error. -/
theorem C3_extract_first_match (s : List Char) :
    (HasVidPattern s →
      ∃ i id, MatchesAt s i id ∧ (∀ j id2, MatchesAt s j id2 → i ≤ j) ∧
        extract_video_id s = Except.ok id) ∧
    (¬ HasVidPattern s → extract_video_id s = Except.error invalidUrlMsg) := by
  have he := extract_video_id_eq_searchVid s
  cases hs : searchVid s with
  | some id =>
    rw [hs] at he
    constructor
    · intro _
      obtain ⟨i, hm, hmin⟩ := searchVid_some_first hs
      exact ⟨i, id, hm, hmin, he⟩
    · intro hn
      obtain ⟨i, hm, _⟩ := searchVid_some_first hs
      exact absurd ⟨i, id, hm⟩ hn
  | none =>
    rw [hs] at he
    constructor
    · intro hhas
      obtain ⟨i, id, hm⟩ := hhas
      exact absurd hm ((searchVid_none_iff s).mp hs i id)
    · intro _
      exact he

/-- Witness for C3: a concrete `youtu.be/` URL, matching at position 8. -/
theorem C3_extract_first_match_witness :
    ∃ i id, MatchesAt "https://youtu.be/dQw4w9WgXcQ".toList i id ∧
      (∀ j id2, MatchesAt "https://youtu.be/dQw4w9WgXcQ".toList j id2 → i ≤ j) ∧
      extract_video_id "https://youtu.be/dQw4w9WgXcQ".toList = Except.ok id :=
  (C3_extract_first_match "https://youtu.be/dQw4w9WgXcQ".toList).1
    ⟨8, "dQw4w9WgXcQ".toList, by decide⟩

/-- C6: a mapping-style item and an attribute-style item exposing the same
logical `(text, start, duration)` values normalize to identical records. -/
theorem C6_map_obj_normalize_eq (t s d : PyVal) :
    normalizeItem (.mapItem [("text".toList, t), ("start".toList, s), ("duration".toList, d)])
      = normalizeItem (.objItem [("text".toList, t), ("start".toList, s),
          ("duration".toList, d)]) := rfl

/-- C5 counterexample: a truthy non-numeric `start` value (the string
`"abc"`) makes `_normalize_items` fail with a conversion error instead of
defaulting to `0.0`, refuting "never raises". -/
theorem C5_counterexample :
    normalize_items [.mapItem [("text".toList, .vStr "hi".toList),
        ("start".toList, .vStr "abc".toList)]]
      = Except.error (.valueError ("could not convert string to float: ".toList
          ++ "abc".toList)) := by
  decide

lemma pyFloat_pyOr_zero {v : PyVal} (h : fieldOk v = true) :
    pyFloat (pyOr v (.vNum 0)) = Except.ok (defaultedNum v) := by
  unfold fieldOk at h
  unfold pyOr defaultedNum
  cases hv : pyTruthy v with
  | false => rfl
  | true =>
    rw [if_pos hv] at h
    show pyFloat v = Except.ok ((pyFloat v).toOption.getD 0)
    cases hf : pyFloat v with
    | ok q => rfl
    | error e =>
      rw [hf] at h
      simp [Except.toBool] at h

lemma normalizeItem_ok_of_itemOk {it : RawItem} (h : itemOk it = true) :
    normalizeItem it = Except.ok ⟨defaultedText (rawGet it "text".toList (.vStr [])),
      defaultedNum (rawGet it "start".toList (.vNum 0)),
      defaultedNum (rawGet it "duration".toList (.vNum 0))⟩ := by
  rw [itemOk, Bool.and_eq_true] at h
  cases it with
  | mapItem f =>
    have hs := pyFloat_pyOr_zero h.1
    have hd := pyFloat_pyOr_zero h.2
    simp only [rawGet] at hs hd ⊢
    simp only [normalizeItem]
    rw [hs, hd]
    rfl
  | objItem f =>
    have hs := pyFloat_pyOr_zero h.1
    have hd := pyFloat_pyOr_zero h.2
    simp only [rawGet] at hs hd ⊢
    simp only [normalizeItem]
    rw [hs, hd]
    rfl

/-- C5 amended: `_normalize_items` never raises as long as every item's
`start`/`duration` value is either falsy (missing, `None`, `0`, `""`) or
convertible to float; each item then yields a record with `text`
defaulting to the empty string and the numeric fields defaulting to `0.0`
when falsy.  (A truthy non-convertible value such as a non-numeric string
raises, per the counterexample.) -/
theorem C5_normalize_defaults (items : List RawItem)
    (h : ∀ it ∈ items, itemOk it = true) :
    normalize_items items = Except.ok (items.map (fun it =>
      ⟨defaultedText (rawGet it "text".toList (.vStr [])),
        defaultedNum (rawGet it "start".toList (.vNum 0)),
        defaultedNum (rawGet it "duration".toList (.vNum 0))⟩)) := by
  induction items with
  | nil => rfl
  | cons x xs ih =>
    have hx := normalizeItem_ok_of_itemOk (h x (by simp))
    have ihx := ih (fun it hit => h it (by simp [hit]))
    unfold normalize_items at ihx ⊢
    rw [List.mapM_cons, hx, ihx]
    rfl

/-- Witness for C5 (amended): three well-behaved items, one per shape. -/
theorem C5_normalize_defaults_witness :
    normalize_items [.mapItem [("text".toList, PyVal.vStr "hello".toList)],
      .objItem [("start".toList, PyVal.vNum 5)], .mapItem []]
      = Except.ok [⟨.vStr "hello".toList, 0, 0⟩, ⟨.vStr [], 5, 0⟩, ⟨.vStr [], 0, 0⟩] := by
  have h := C5_normalize_defaults [.mapItem [("text".toList, PyVal.vStr "hello".toList)],
    .objItem [("start".toList, PyVal.vNum 5)], .mapItem []] (by decide)
  rw [h]
  decide

/-- C4 counterexample: the item whose text is the single space survives
the filter (its raw text is truthy), is trimmed to the empty string, and
contributes an empty line — the code output `"a\n\nb"` differs from the
claim's join-of-nonempty-trimmed-texts `"a\nb"`. -/
theorem C4_counterexample :
    formatTranscript [⟨.vStr "a".toList, 0, 0⟩, ⟨.vStr " ".toList, 0, 0⟩,
        ⟨.vStr "b".toList, 0, 0⟩] = Except.ok "a\n\nb".toList ∧
    specFormatC4 ["a".toList, " ".toList, "b".toList] = "a\nb".toList ∧
    "a\n\nb".toList ≠ "a\nb".toList := by
  refine ⟨by decide, by decide, by decide⟩

lemma buildLines_strings (items : List NormItem)
    (h : ∀ x ∈ items, ∃ s0, x.text = PyVal.vStr s0) :
    buildLines items = Except.ok (items.filterMap fmtStr) := by
  induction items with
  | nil => rfl
  | cons x xs ih =>
    obtain ⟨s0, hx⟩ := h x (by simp)
    have ih2 := ih (fun y hy => h y (by simp [hy]))
    unfold buildLines at ih2 ⊢
    rw [List.filter_cons, List.filterMap_cons, hx]
    by_cases hs : s0 = []
    · subst hs
      have h1 : pyTruthy (PyVal.vStr []) = false := rfl
      have h2 : fmtStr x = none := by simp [fmtStr, hx]
      rw [h1, h2]
      simpa using ih2
    · have h1 : pyTruthy (PyVal.vStr s0) = true := by simp [pyTruthy, hs]
      have h2 : fmtStr x = some (pyStrip (replaceNl s0)) := by simp [fmtStr, hx, hs]
      rw [h1, h2]
      simp only [if_true]
      rw [List.mapM_cons, hx]
      have h3 : lineOf (PyVal.vStr s0) = Except.ok (pyStrip (replaceNl s0)) := rfl
      rw [h3, ih2]
      rfl

/-- C4 amended: the formatting step keeps exactly the items whose raw text
is non-empty (so a whitespace-only text is kept and contributes an empty
line); each kept text has its line breaks replaced by spaces and is
trimmed; the result is the newline join of the kept texts in order,
trimmed of leading and trailing whitespace. -/
theorem C4_format_amended (items : List NormItem)
    (h : ∀ x ∈ items, ∃ s0, x.text = PyVal.vStr s0) :
    formatTranscript items = Except.ok (pyStrip (joinNl (items.filterMap fmtStr))) := by
  unfold formatTranscript
  rw [buildLines_strings items h]
  rfl

/-- Witness for C4 (amended) at a concrete item list. -/
theorem C4_format_amended_witness :
    formatTranscript [⟨PyVal.vStr "x".toList, 0, 0⟩]
      = Except.ok (pyStrip (joinNl ([(⟨PyVal.vStr "x".toList, 0, 0⟩ : NormItem)].filterMap
          fmtStr))) :=
  C4_format_amended [⟨PyVal.vStr "x".toList, 0, 0⟩]
    (fun x hx => by
      simp at hx
      exact ⟨"x".toList, by rw [hx]; rfl⟩)

lemma except_bind_ok {α β : Type} (a : α) (f : α → Except PyErr β) :
    (Except.ok a >>= f) = f a := rfl

lemma except_bind_err {α β : Type} (e : PyErr) (f : α → Except PyErr β) :
    ((Except.error e : Except PyErr α) >>= f) = Except.error e := rfl

lemma attemptBody_error {up : Nat → Except PyErr (List RawItem)} {n : Nat} {e : PyErr}
    (h : up n = .error e) : attemptBody up n = .error e := by
  unfold attemptBody
  rw [h]
  rfl

lemma fetchLoop_succ (up : Nat → Except PyErr (List RawItem)) (maxR delay : Int)
    (attempt fuel : Nat) :
    fetchLoop up maxR delay attempt (fuel + 1) =
      (match attemptBody up attempt with
      | .ok t => ⟨Except.ok (some t), [], 1⟩
      | .error e =>
        if isBlockedExc e then
          if (attempt : Int) < maxR - 1 then
            ⟨(fetchLoop up maxR delay (attempt + 1) fuel).result,
              delay * ((attempt : Int) + 1)
                :: (fetchLoop up maxR delay (attempt + 1) fuel).sleeps,
              (fetchLoop up maxR delay (attempt + 1) fuel).attempts + 1⟩
          else ⟨Except.error (.connectionError blockedMsg), [], 1⟩
        else if isPermanentExc e then ⟨Except.error (.valueError e.msg), [], 1⟩
        else
          if (attempt : Int) < maxR - 1 then
            ⟨(fetchLoop up maxR delay (attempt + 1) fuel).result,
              delay * ((attempt : Int) + 1)
                :: (fetchLoop up maxR delay (attempt + 1) fuel).sleeps,
              (fetchLoop up maxR delay (attempt + 1) fuel).attempts + 1⟩
          else ⟨Except.error (.runtimeError e.msg), [], 1⟩ : FetchOut) := rfl

lemma blocked_not_permanent {e : PyErr} (h : isBlockedExc e = true) :
    isPermanentExc e = false := by
  cases e <;> simp_all [isBlockedExc, isPermanentExc]

lemma permanent_not_blocked {e : PyErr} (h : isPermanentExc e = true) :
    isBlockedExc e = false := by
  cases e <;> simp_all [isBlockedExc, isPermanentExc]

lemma attemptBody_ok_ne_nil {up : Nat → Except PyErr (List RawItem)} {n : Nat}
    {t : List Char} (h : attemptBody up n = .ok t) : t ≠ [] := by
  unfold attemptBody at h
  cases h1 : up n with
  | error e => simp only [h1, except_bind_err] at h; cases h
  | ok items =>
    simp only [h1, except_bind_ok] at h
    cases h2 : normalize_items items with
    | error e => simp only [h2, except_bind_err] at h; cases h
    | ok norm =>
      simp only [h2, except_bind_ok] at h
      cases h3 : formatTranscript norm with
      | error e => simp only [h3, except_bind_err] at h; cases h
      | ok text =>
        simp only [h3, except_bind_ok] at h
        by_cases h4 : text = []
        · rw [if_pos h4] at h; cases h
        · rw [if_neg h4] at h
          injection h with h
          subst h
          exact h4

lemma fetchLoop_ok_ne_nil (up : Nat → Except PyErr (List RawItem)) (maxR delay : Int) :
    ∀ fuel attempt t, (fetchLoop up maxR delay attempt fuel).result = .ok (some t) →
      t ≠ [] := by
  intro fuel
  induction fuel with
  | zero => intro attempt t h; simp [fetchLoop] at h
  | succ fuel ih =>
    intro attempt t h
    cases hab : attemptBody up attempt with
    | ok t2 =>
      simp only [fetchLoop, hab] at h
      injection h with h
      injection h with h
      subst h
      exact attemptBody_ok_ne_nil hab
    | error e =>
      simp only [fetchLoop, hab] at h
      by_cases hb : isBlockedExc e = true
      · rw [if_pos hb] at h
        by_cases hlt : (attempt : Int) < maxR - 1
        · rw [if_pos hlt] at h
          exact ih (attempt + 1) t h
        · rw [if_neg hlt] at h; simp at h
      · rw [if_neg hb] at h
        by_cases hp : isPermanentExc e = true
        · rw [if_pos hp] at h; simp at h
        · rw [if_neg hp] at h
          by_cases hlt : (attempt : Int) < maxR - 1
          · rw [if_pos hlt] at h
            exact ih (attempt + 1) t h
          · rw [if_neg hlt] at h; simp at h

lemma range_map_shift (delay : Int) (a f : Nat) :
    delay * ((a : Int) + 1)
        :: (List.range f).map (fun i : Nat => delay * (((a + 1 : Nat) : Int) + (i : Int) + 1))
      = (List.range (f + 1)).map (fun i : Nat => delay * ((a : Int) + (i : Int) + 1)) := by
  rw [List.range_succ_eq_map, List.map_cons, List.map_map]
  have h0 : delay * ((a : Int) + 1) = delay * ((a : Int) + ((0 : Nat) : Int) + 1) := by
    norm_num
  have h1 : (fun i : Nat => delay * (((a + 1 : Nat) : Int) + (i : Int) + 1))
      = (fun i : Nat => delay * ((a : Int) + ((Nat.succ i : Nat) : Int) + 1)) := by
    funext i
    push_cast
    ring
  rw [h0, h1]
  rfl

lemma sum_list_range_map (f : Nat → Int) : ∀ n : Nat,
    ((List.range n).map f).sum = ∑ i in Finset.range n, f i := by
  intro n
  induction n with
  | zero => rfl
  | succ n ih =>
    rw [List.range_succ, List.map_append, List.sum_append, Finset.sum_range_succ, ih]
    simp

lemma fetchLoop_all_fail (up : Nat → Except PyErr (List RawItem)) (maxR delay : Int)
    (hup : ∀ n, ∃ e, up n = .error e ∧ isPermanentExc e = false) :
    ∀ (fuel attempt : Nat), 1 ≤ fuel → (attempt : Int) + (fuel : Int) = maxR →
      ∃ e, up (attempt + fuel - 1) = .error e ∧ isPermanentExc e = false ∧
        fetchLoop up maxR delay attempt fuel =
          ⟨.error (if isBlockedExc e then PyErr.connectionError blockedMsg
              else PyErr.runtimeError e.msg),
            (List.range (fuel - 1)).map (fun i : Nat => delay * ((attempt : Int) + (i : Int) + 1)),
            fuel⟩ := by
  intro fuel
  induction fuel with
  | zero => intro attempt h1 _; exact absurd h1 (by omega)
  | succ fuel ih =>
    intro attempt h1 h2
    obtain ⟨e, he, hpe⟩ := hup attempt
    have hab := attemptBody_error he
    cases fuel with
    | zero =>
      have hlt : ¬ ((attempt : Int) < maxR - 1) := by push_cast at h2; omega
      refine ⟨e, by simpa using he, hpe, ?_⟩
      simp only [fetchLoop, hab]
      by_cases hbe : isBlockedExc e = true
      · rw [if_pos hbe, if_pos hbe, if_neg hlt]
        rfl
      · rw [if_neg hbe, if_neg hbe, if_neg (ne_true_of_eq_false hpe), if_neg hlt]
        rfl
    | succ f2 =>
      have hlt : (attempt : Int) < maxR - 1 := by push_cast at h2; omega
      obtain ⟨e2, he2, hpe2, hrec⟩ := ih (attempt + 1) (by omega)
        (by push_cast at h2 ⊢; omega)
      refine ⟨e2, ?_, hpe2, ?_⟩
      · have hidx : attempt + (f2 + 1 + 1) - 1 = attempt + 1 + (f2 + 1) - 1 := by omega
        rw [hidx]; exact he2
      · rw [fetchLoop_succ]
        simp only [hab]
        by_cases hbe : isBlockedExc e = true
        · rw [if_pos hbe, if_pos hlt, hrec]
          simp only [FetchOut.mk.injEq, and_true, true_and]
          exact range_map_shift delay attempt (f2 + 1 - 1)
        · rw [if_neg hbe, if_neg (ne_true_of_eq_false hpe), if_pos hlt, hrec]
          simp only [FetchOut.mk.injEq, and_true, true_and]
          exact range_map_shift delay attempt (f2 + 1 - 1)

/-- C1: with max_retries ≥ 1, a positive retry_delay, and a transient
blocked/rate-limited signal on every attempt, fetch_transcript_text makes
exactly max_retries attempts, sleeps retry_delay * attempt_number after
each non-final attempt (attempt numbers starting at 1), and fails with the
Blocked ConnectionError. -/
theorem C1_blocked_retry_backoff (up : Nat → Except PyErr (List RawItem))
    (maxR delay : Int) (hmax : 1 ≤ maxR) (hdelay : 0 < delay)
    (hup : ∀ n, ∃ e, up n = .error e ∧ isBlockedExc e = true) :
    (fetch_transcript_text up maxR delay).result
        = Except.error (.connectionError blockedMsg) ∧
    ((fetch_transcript_text up maxR delay).attempts : Int) = maxR ∧
    (fetch_transcript_text up maxR delay).sleeps
        = (List.range (maxR.toNat - 1)).map (fun i : Nat => delay * ((i : Int) + 1)) ∧
    (fetch_transcript_text up maxR delay).sleeps.sum
        = ∑ i in Finset.range (maxR.toNat - 1), delay * ((i : Int) + 1) := by
  have hup2 : ∀ n, ∃ e, up n = .error e ∧ isPermanentExc e = false := fun n => by
    obtain ⟨e, he, hb⟩ := hup n
    exact ⟨e, he, blocked_not_permanent hb⟩
  obtain ⟨e, he, hpe, hloop⟩ := fetchLoop_all_fail up maxR delay hup2 maxR.toNat 0
    (by omega) (by push_cast; omega)
  obtain ⟨e2, he2, hb2⟩ := hup (0 + maxR.toNat - 1)
  rw [he2] at he
  injection he with he
  subst he
  rw [if_pos hb2] at hloop
  have hfun : (fun i : Nat => delay * (((0 : Nat) : Int) + (i : Int) + 1))
      = (fun i : Nat => delay * ((i : Int) + 1)) := by
    funext i
    norm_num
  rw [hfun] at hloop
  refine ⟨?_, ?_, ?_, ?_⟩
  · show (fetchLoop up maxR delay 0 maxR.toNat).result = _
    rw [hloop]
  · show ((fetchLoop up maxR delay 0 maxR.toNat).attempts : Int) = maxR
    rw [hloop]
    show ((maxR.toNat : Int)) = maxR
    omega
  · show (fetchLoop up maxR delay 0 maxR.toNat).sleeps = _
    rw [hloop]
  · show (fetchLoop up maxR delay 0 maxR.toNat).sleeps.sum = _
    rw [hloop]
    exact sum_list_range_map _ _

/-- Witness for C1: max_retries = 3, retry_delay = 2 gives 3 attempts,
sleeps [2, 4] (total wait 6 seconds), and the Blocked error. -/
theorem C1_blocked_retry_backoff_witness :
    (fetch_transcript_text upBlockedConst 3 2).result
        = Except.error (.connectionError blockedMsg) ∧
    ((fetch_transcript_text upBlockedConst 3 2).attempts : Int) = 3 ∧
    (fetch_transcript_text upBlockedConst 3 2).sleeps = [2, 4] ∧
    (fetch_transcript_text upBlockedConst 3 2).sleeps.sum = 6 := by
  have h := C1_blocked_retry_backoff upBlockedConst 3 2 (by decide) (by decide)
    (fun n => ⟨.ipBlocked "blocked".toList, rfl, rfl⟩)
  exact ⟨h.1, h.2.1, by decide, by decide⟩

/-- C2 counterexample: with max_retries = 2, retry_delay = 1 and an
uncategorized upstream error on every attempt, the fetch makes 2 attempts
and sleeps once — an uncategorized error is retried, not failed
immediately on the first attempt. -/
theorem C2_counterexample :
    fetch_transcript_text upOtherConst 2 1
      = ⟨Except.error (.runtimeError "boom".toList), [1], 2⟩ := by decide

/-- C2 amended: the disabled/not-found/unavailable upstream errors fail on
the first attempt, with no retry and no sleep, as a ValueError wrapping the
message; any other non-blocked upstream exception is retried with the same
linear backoff as the transient case and, after max_retries attempts,
fails as a RuntimeError (the uncategorized wrapper) wrapping the final
attempt's original message. -/
theorem C2_error_classification :
    (∀ (up : Nat → Except PyErr (List RawItem)) (maxR delay : Int) (e : PyErr),
      1 ≤ maxR → up 0 = .error e → isPermanentExc e = true →
        fetch_transcript_text up maxR delay
          = ⟨Except.error (.valueError e.msg), [], 1⟩) ∧
    (∀ (up : Nat → Except PyErr (List RawItem)) (maxR delay : Int),
      1 ≤ maxR →
      (∀ n, ∃ e, up n = .error e ∧ isBlockedExc e = false ∧ isPermanentExc e = false) →
      ∃ e, up (maxR.toNat - 1) = .error e ∧
        fetch_transcript_text up maxR delay =
          ⟨Except.error (.runtimeError e.msg),
            (List.range (maxR.toNat - 1)).map (fun i : Nat => delay * ((i : Int) + 1)),
            maxR.toNat⟩) := by
  constructor
  · intro up maxR delay e hmax hup hperm
    obtain ⟨f, hf⟩ : ∃ f, maxR.toNat = f + 1 := ⟨maxR.toNat - 1, by omega⟩
    show fetchLoop up maxR delay 0 maxR.toNat = _
    rw [hf, fetchLoop_succ]
    simp only [attemptBody_error hup]
    rw [if_neg (ne_true_of_eq_false (permanent_not_blocked hperm)), if_pos hperm]
  · intro up maxR delay hmax hup
    have hup2 : ∀ n, ∃ e, up n = .error e ∧ isPermanentExc e = false := fun n => by
      obtain ⟨e, he, _, hp⟩ := hup n
      exact ⟨e, he, hp⟩
    obtain ⟨e, he, hpe, hloop⟩ := fetchLoop_all_fail up maxR delay hup2 maxR.toNat 0
      (by omega) (by push_cast; omega)
    obtain ⟨e2, he2, hnb2, hnp2⟩ := hup (0 + maxR.toNat - 1)
    rw [he2] at he
    injection he with he
    subst he
    rw [if_neg (ne_true_of_eq_false hnb2)] at hloop
    refine ⟨e2, by simpa using he2, ?_⟩
    show fetchLoop up maxR delay 0 maxR.toNat = _
    rw [hloop]
    have hfun : (fun i : Nat => delay * (((0 : Nat) : Int) + (i : Int) + 1))
        = (fun i : Nat => delay * ((i : Int) + 1)) := by
      funext i
      norm_num
    rw [hfun]

/-- Witness for C2 (amended), part (a): a disabled-captions upstream fails
immediately with one attempt and no sleep. -/
theorem C2_error_classification_witness :
    fetch_transcript_text upDisabledConst 3 2
      = ⟨Except.error (.valueError "disabled".toList), [], 1⟩ :=
  C2_error_classification.1 upDisabledConst 3 2
    (.transcriptsDisabled "disabled".toList) (by decide) rfl rfl

lemma summarize_with_hf_none (cfg : Config) (net : NetResult) :
    summarize_with_hf cfg none net = .str [] := by
  unfold summarize_with_hf
  by_cases h1 : cfg.enable_summary = false
  · rw [if_pos h1]
  · rw [if_neg h1]
    by_cases h2 : cfg.hf_token = []
    · rw [if_pos h2]
    · rw [if_neg h2, if_pos (by rfl)]

/-- C10: with max_retries ≤ 0 the loop body never runs: no upstream
attempt, no sleep, and Python's implicit `return None`; the endpoint then
returns a success-shaped response whose transcript is null and whose error
is empty (the summarizer maps `None` to the empty string). -/
theorem C10_nonpositive_retries (cfg : Config) (req : Req)
    (up : Nat → Except PyErr (List RawItem)) (net : NetResult) (vid : List Char)
    (hmr : req.max_retries ≤ 0) (hex : extract_video_id req.url = .ok vid) :
    fetch_transcript_text up req.max_retries req.retry_delay
        = ⟨Except.ok none, [], 0⟩ ∧
    summarize_post cfg req up net = ⟨vid, .null, .str [], []⟩ := by
  have h0 : req.max_retries.toNat = 0 := Int.toNat_of_nonpos hmr
  have hfetch : fetch_transcript_text up req.max_retries req.retry_delay
      = ⟨Except.ok none, [], 0⟩ := by
    show fetchLoop up req.max_retries req.retry_delay 0 req.max_retries.toNat = _
    rw [h0]
    rfl
  refine ⟨hfetch, ?_⟩
  unfold summarize_post
  simp only [hex, hfetch]
  rw [summarize_with_hf_none]
  cases hs : req.summarize <;> rfl

/-- Witness for C10 at max_retries = 0 and a concrete URL. -/
theorem C10_nonpositive_retries_witness :
    fetch_transcript_text upHello reqZero.max_retries reqZero.retry_delay
        = ⟨Except.ok none, [], 0⟩ ∧
    summarize_post cfgTok reqZero upHello netX
        = ⟨"dQw4w9WgXcQ".toList, .null, .str [], []⟩ :=
  C10_nonpositive_retries cfgTok reqZero upHello netX "dQw4w9WgXcQ".toList
    (by decide) (by decide)

/-- C8: when video-id extraction and transcript fetch succeed, the
response keeps the (non-empty) transcript and an empty error field
whatever the summarization step does — for every network outcome the
summary slot only varies, never the transcript or the error. -/
theorem C8_summarization_nonfatal (cfg : Config) (req : Req)
    (up : Nat → Except PyErr (List RawItem)) (net : NetResult) (vid t : List Char)
    (hex : extract_video_id req.url = .ok vid)
    (hf : (fetch_transcript_text up req.max_retries req.retry_delay).result
        = .ok (some t)) :
    summarize_post cfg req up net
        = ⟨vid, .str t,
            (if req.summarize then summarize_with_hf cfg (some t) net else .str []), []⟩
      ∧ t ≠ [] := by
  constructor
  · unfold summarize_post
    simp only [hex, hf]
  · exact fetchLoop_ok_ne_nil up req.max_retries req.retry_delay
      req.max_retries.toNat 0 t hf

/-- Witness for C8: one successful fetch, summarization disabled, failing
network — the transcript and empty error survive. -/
theorem C8_summarization_nonfatal_witness :
    summarize_post cfgOff reqOne upHello netX
        = ⟨"dQw4w9WgXcQ".toList, .str "hello".toList,
            (if reqOne.summarize then summarize_with_hf cfgOff (some "hello".toList) netX
              else .str []), []⟩
      ∧ "hello".toList ≠ [] :=
  C8_summarization_nonfatal cfgOff reqOne upHello netX "dQw4w9WgXcQ".toList
    "hello".toList (by decide) (by decide)

/-- C9: when the summarization credential is unset, summarize_with_hf
returns the empty string for every input and is independent of the network
interaction (no network call can influence the result). -/
theorem C9_no_token (cfg : Config) (text : Option (List Char))
    (h : cfg.hf_token = []) :
    (∀ net, summarize_with_hf cfg text net = .str []) ∧
    (∀ net1 net2, summarize_with_hf cfg text net1 = summarize_with_hf cfg text net2) := by
  have hall : ∀ net, summarize_with_hf cfg text net = .str [] := by
    intro net
    unfold summarize_with_hf
    by_cases h1 : cfg.enable_summary = false
    · rw [if_pos h1]
    · rw [if_neg h1, if_pos h]
  exact ⟨hall, fun n1 n2 => (hall n1).trans (hall n2).symm⟩

/-- Witness for C9 with an empty-token configuration. -/
theorem C9_no_token_witness :
    (∀ net, summarize_with_hf cfgNoTok (some "hi".toList) net = .str []) ∧
    (∀ net1 net2, summarize_with_hf cfgNoTok (some "hi".toList) net1
        = summarize_with_hf cfgNoTok (some "hi".toList) net2) :=
  C9_no_token cfgNoTok (some "hi".toList) rfl

/-- C7 counterexample: `{"summary_text": 5}` is not a success record (its
value is not a string), yet summarize_with_hf returns the raw number 5,
which is neither an empty string nor any string at all. -/
theorem C7_counterexample :
    successShape (Json.obj [("summary_text".toList, Json.num 5)]) = false ∧
    summarize_with_hf cfgTok (some "hi".toList)
        (.netJson (Json.obj [("summary_text".toList, Json.num 5)])) = Json.num 5 ∧
    ∀ s : List Char, Json.num 5 ≠ Json.str s := by
  refine ⟨rfl, rfl, fun s h => by cases h⟩

lemma jGetD_default {f : List (List Char × Json)} {k : List Char} {d : Json}
    (h : hasKey f k = false) : jGetD f k d = d := by
  unfold hasKey at h
  unfold jGetD
  cases hf : f.find? (fun kv => kv.1 = k) with
  | none => rfl
  | some kv => rw [hf] at h; simp at h

lemma parse_not_carrying {data : Json} (h : carryingShape data = false) :
    parse_hf_response data = .ok (.str []) ∨ parse_hf_response data = .error attrGetMsg := by
  cases data with
  | null => left; rfl
  | jBool b => left; rfl
  | num q => left; rfl
  | str s => left; rfl
  | arr l =>
    cases l with
    | nil => left; rfl
    | cons x rest =>
      cases x with
      | obj f =>
        left
        have hc : carriesSummary (Json.obj f) = false := h
        unfold carriesSummary at hc
        rw [Bool.or_eq_false_iff] at hc
        show Except.ok (jOr (jGet f "summary_text".toList)
            (jGetD f "generated_text".toList (Json.str []))) = _
        rw [jOr, if_neg (ne_true_of_eq_false hc.1), jGetD_default hc.2]
      | null => right; rfl
      | jBool b => right; rfl
      | num q => right; rfl
      | str s => right; rfl
      | arr l2 => right; rfl
  | obj f =>
    left
    have hc : carriesSummary (Json.obj f) = false := h
    unfold carriesSummary at hc
    rw [Bool.or_eq_false_iff] at hc
    show Except.ok (jOr (jGet f "summary_text".toList)
        (jGetD f "generated_text".toList (Json.str []))) = _
    rw [jOr, if_neg (ne_true_of_eq_false hc.1), jGetD_default hc.2]

/-- C7 amended: for every parseable response that does not carry a summary
value (no record with a truthy `summary_text` or any `generated_text`
entry, neither directly nor as the first element of a list),
summarize_with_hf returns the empty string or the clearly-marked
`HF Inference error: ` placeholder; by construction no parse exception
propagates (the function is total).  (When such an entry is present, its
raw value — not necessarily a string — is returned, per the
counterexample.) -/
theorem C7_shape_tolerance (cfg : Config) (text : Option (List Char)) (data : Json)
    (h : carryingShape data = false) :
    summarize_with_hf cfg text (.netJson data) = .str [] ∨
    summarize_with_hf cfg text (.netJson data) = .str (hfErrPrefix ++ attrGetMsg) := by
  unfold summarize_with_hf
  by_cases h1 : cfg.enable_summary = false
  · left; rw [if_pos h1]
  · rw [if_neg h1]
    by_cases h2 : cfg.hf_token = []
    · left; rw [if_pos h2]
    · rw [if_neg h2]
      by_cases h3 : pyStrip (text.getD []) = []
      · left; rw [if_pos h3]
      · rw [if_neg h3]
        rcases parse_not_carrying h with hp | hp
        · left
          show (match parse_hf_response data with
            | .ok v => v
            | .error m => Json.str (hfErrPrefix ++ m)) = Json.str []
          rw [hp]
        · right
          show (match parse_hf_response data with
            | .ok v => v
            | .error m => Json.str (hfErrPrefix ++ m)) = Json.str (hfErrPrefix ++ attrGetMsg)
          rw [hp]

/-- Witness for C7 (amended): a bare JSON string response yields "". -/
theorem C7_shape_tolerance_witness :
    summarize_with_hf cfgTok (some "hi".toList) (.netJson (Json.str "x".toList)) = .str [] ∨
    summarize_with_hf cfgTok (some "hi".toList) (.netJson (Json.str "x".toList))
        = .str (hfErrPrefix ++ attrGetMsg) :=
  C7_shape_tolerance cfgTok (some "hi".toList) (Json.str "x".toList) rfl

end YTB
